import Mathlib

/-!
Verification of the Channel Event Router and Adapter Rendering Pipeline
(troublemaker). Definitions are shallow embeddings of the TypeScript
source: `src/main.ts` (shared handler / channel run state),
`src/gateway.ts` (Gateway), `src/tools/send-message.ts` (cross-channel
router), `src/adapters/telegram-base.ts` (per-conversation queue and the
Telegram rendering context), `src/adapters/telegram-webhook.ts` and
`src/adapters/slack-webhook.ts` (inbound webhook dispatch).
-/

namespace Troublemaker

/-! ## Platform operations

Message primitives of a `PlatformAdapter` (`postMessage`, `updateMessage`,
`deleteMessage`, `sendChatAction`).  A `post` carries the channel and text;
the message id ("ts") it returns is modelled by the caller. -/

inductive PlatformOp where
  | post (channel text : String)
  | update (channel ts text : String)
  | delete (channel ts : String)
  | chatAction (channel : String)
deriving DecidableEq, Repr

/-! ## Channel run state (`src/main.ts`, `ChannelState` and the shared handler) -/

/-- `ChannelState` from `src/main.ts` (the `runner` and `store` fields are
external collaborators and carry no state relevant to the claims). -/
structure ChanState where
  running : Bool
  stopRequested : Bool
  stopMessageTs : Option String
deriving DecidableEq, Repr

/-- `channelStates` is a `Map<string, ChannelState>`; modelled as an
association list with first-match lookup. -/
def lookupState (m : List (String × ChanState)) (id : String) : Option ChanState :=
  (m.find? (fun e => e.1 == id)).map (fun e => e.2)

/-- In-place mutation of the entry found by `channelStates.get(id)`. -/
def setState (m : List (String × ChanState)) (id : String) (st : ChanState) :
    List (String × ChanState) :=
  m.map (fun e => if e.1 == id then (e.1, st) else e)

/-- `handler.isRunning` from `src/main.ts`:
`channelStates.get(channelId)?.running ?? false`. -/
def isRunning (m : List (String × ChanState)) (id : String) : Bool :=
  ((lookupState m id).map (fun st => st.running)).getD false

/-- Result of `handler.handleStop`: the updated `channelStates`, the platform
operations performed, and whether `state.runner.abort()` was invoked. -/
structure StopOutcome where
  states : List (String × ChanState)
  ops : List PlatformOp
  abortSignalled : Bool
deriving DecidableEq, Repr

/-- `handler.handleStop` from `src/main.ts`: if the channel's state exists and
`running` is set, it sets `stopRequested`, calls `runner.abort()`, posts
`"_Stopping..._"` and records the returned ts in `stopMessageTs`; otherwise it
only posts `"_Nothing running_"`.  `newTs` is the message id returned by
`platform.postMessage`. -/
def handleStop (m : List (String × ChanState)) (id : String) (newTs : String) :
    StopOutcome :=
  match lookupState m id with
  | some st =>
    if st.running then
      { states := setState m id
          { st with stopRequested := true, stopMessageTs := some newTs }
        ops := [PlatformOp.post id "_Stopping..._"]
        abortSignalled := true }
    else
      { states := m, ops := [PlatformOp.post id "_Nothing running_"]
        abortSignalled := false }
  | none =>
      { states := m, ops := [PlatformOp.post id "_Nothing running_"]
        abortSignalled := false }

/-- How `state.runner.run` ended: the reported stop reason, or the run threw
(the exception is caught and logged by `handleEvent`). -/
inductive RunEnd where
  | completed
  | aborted
  | threw
deriving DecidableEq, Repr

/-- The tail of `handler.handleEvent` (`src/main.ts` lines 258-273): after the
agent run ends, if `result.stopReason === "aborted"` and `stopRequested` is
set, the recorded `"_Stopping..._"` message is edited in place to
`"_Stopped_"` and the handle cleared (or, with no recorded handle, a fresh
`"_Stopped_"` is posted); on a thrown run the branch is skipped entirely; the
`finally` block clears `running` on every path. -/
def afterRun (st : ChanState) (channel : String) (r : RunEnd) :
    ChanState × List PlatformOp :=
  if r = RunEnd.aborted ∧ st.stopRequested then
    match st.stopMessageTs with
    | some ts =>
        ({ st with stopMessageTs := none, running := false },
         [PlatformOp.update channel ts "_Stopped_"])
    | none =>
        ({ st with running := false }, [PlatformOp.post channel "_Stopped_"])
  else
    ({ st with running := false }, [])

/-- C7: `handleStop` on a conversation that is not running (no state entry, or
`running = false`) posts `"_Nothing running_"`, signals no abort, leaves the
state map untouched, and `isRunning` stays false. -/
theorem handleStop_idle_frame (m : List (String × ChanState)) (id ts : String)
    (h : isRunning m id = false) :
    handleStop m id ts =
      { states := m, ops := [PlatformOp.post id "_Nothing running_"]
        abortSignalled := false } ∧
    isRunning (handleStop m id ts).states id = false := by
  unfold handleStop
  cases hl : lookupState m id with
  | none =>
      refine ⟨rfl, ?_⟩
      simp [isRunning, hl]
  | some st =>
      have hrun : st.running = false := by
        simpa [isRunning, hl] using h
      simp only [hrun]
      refine ⟨by simp, ?_⟩
      simpa [isRunning, hl] using h

theorem handleStop_idle_frame_witness :
    isRunning [("c1", ⟨false, false, none⟩)] "c1" = false ∧
    (handleStop [("c1", ⟨false, false, none⟩)] "c1" "9" =
      { states := [("c1", ⟨false, false, none⟩)]
        ops := [PlatformOp.post "c1" "_Nothing running_"]
        abortSignalled := false } ∧
     isRunning (handleStop [("c1", ⟨false, false, none⟩)] "c1" "9").states "c1"
       = false) :=
  ⟨by decide, handleStop_idle_frame [("c1", ⟨false, false, none⟩)] "c1" "9" (by decide)⟩

/-- C6: stopping a running conversation sets `stopRequested`, signals abort,
posts the transient `"_Stopping..._"` indicator recording its handle; when the
run then ends `aborted` with `stopRequested` set and a recorded handle, the
indicator is edited in place to `"_Stopped_"` and the handle cleared (no new
message); on any other outcome no extra operation is produced. -/
theorem handleStop_running_and_abort_finalize
    (m : List (String × ChanState)) (id newTs : String) :
    (∀ st, lookupState m id = some st → st.running = true →
      handleStop m id newTs =
        { states := setState m id
            { st with stopRequested := true, stopMessageTs := some newTs }
          ops := [PlatformOp.post id "_Stopping..._"]
          abortSignalled := true }) ∧
    (∀ (st : ChanState) (ch ts : String), st.stopRequested = true →
      st.stopMessageTs = some ts →
      afterRun st ch RunEnd.aborted =
        ({ st with stopMessageTs := none, running := false },
         [PlatformOp.update ch ts "_Stopped_"])) ∧
    (∀ (st : ChanState) (ch : String) (r : RunEnd),
      ¬(r = RunEnd.aborted ∧ st.stopRequested = true) →
      afterRun st ch r = ({ st with running := false }, [])) := by
  refine ⟨?_, ?_, ?_⟩
  · intro st hl hr
    unfold handleStop
    simp [hl, hr]
  · intro st ch ts hreq hts
    unfold afterRun
    simp [hreq, hts]
  · intro st ch r hnot
    unfold afterRun
    rcases hr : st.stopRequested with _ | _
    · simp [hr]
    · have : ¬ r = RunEnd.aborted := fun h => hnot ⟨h, hr⟩
      simp [this]

theorem handleStop_running_and_abort_finalize_witness :
    (lookupState [("c1", ⟨true, false, none⟩)] "c1" = some ⟨true, false, none⟩ ∧
     (⟨true, false, none⟩ : ChanState).running = true ∧
     (⟨false, true, some "7"⟩ : ChanState).stopRequested = true ∧
     (⟨false, true, some "7"⟩ : ChanState).stopMessageTs = some "7" ∧
     ¬(RunEnd.completed = RunEnd.aborted ∧
        (⟨false, true, some "7"⟩ : ChanState).stopRequested = true)) ∧
    (handleStop [("c1", ⟨true, false, none⟩)] "c1" "5" =
      { states := [("c1", ⟨true, true, some "5"⟩)]
        ops := [PlatformOp.post "c1" "_Stopping..._"]
        abortSignalled := true } ∧
     afterRun ⟨false, true, some "7"⟩ "c1" RunEnd.aborted =
       (⟨false, true, none⟩, [PlatformOp.update "c1" "7" "_Stopped_"]) ∧
     afterRun ⟨false, true, some "7"⟩ "c1" RunEnd.completed =
       (⟨false, true, some "7"⟩, [])) := by
  have h := handleStop_running_and_abort_finalize
    [("c1", ⟨true, false, none⟩)] "c1" "5"
  refine ⟨by decide, ?_, ?_, ?_⟩
  · have := h.1 ⟨true, false, none⟩ (by decide) (by decide)
    simpa [setState] using this
  · exact h.2.1 ⟨false, true, some "7"⟩ "c1" "7" (by decide) (by decide)
  · exact h.2.2 ⟨false, true, some "7"⟩ "c1" RunEnd.completed (by decide)

/-! ## Gateway (`src/gateway.ts`) -/

/-- A dispatched response: either a terminal status written by the gateway
itself, or the request handed to the registered route handler (handlers are
identified by an opaque id). -/
inductive GwResponse where
  | status (code : Nat)
  | handler (h : Nat)
deriving DecidableEq, Repr

/-- `Gateway`: `routes` is the `Map<string, RouteHandler>` (handler ids in
place of closures), `readyRoutes` the `Set<string>`. -/
structure Gateway where
  routes : String → Option Nat
  readyRoutes : String → Bool

def Gateway.empty : Gateway :=
  { routes := fun _ => none, readyRoutes := fun _ => false }

/-- `Gateway.register`: `this.routes.set(path, handler)`. -/
def Gateway.register (g : Gateway) (path : String) (h : Nat) : Gateway :=
  { g with routes := fun p => if p = path then some h else g.routes p }

/-- `Gateway.markReady`: `this.readyRoutes.add(path)`. -/
def Gateway.markReady (g : Gateway) (path : String) : Gateway :=
  { g with readyRoutes := fun p => if p = path then true else g.readyRoutes p }

/-- The request dispatch closure installed by `Gateway.start`:
`GET /health` → 200; any other non-POST method → 405; unknown path → 404;
known-but-not-ready path → 503; otherwise the registered handler runs. -/
def Gateway.dispatch (g : Gateway) (method url : String) : GwResponse :=
  if method = "GET" ∧ url = "/health" then GwResponse.status 200
  else if method ≠ "POST" then GwResponse.status 405
  else
    match g.routes url with
    | none => GwResponse.status 404
    | some h =>
        if g.readyRoutes url then GwResponse.handler h
        else GwResponse.status 503

/-- C4: `GET /health` is 200 for every gateway state (hence regardless of
readiness); any other non-POST request is 405; a POST to an unregistered path
is 404; a POST to a registered, not-ready path is 503; a POST to a ready path
invokes the registered handler; and after `markReady(path)` the identical POST
that was 503 is dispatched to the handler. -/
theorem gateway_dispatch_contract (g : Gateway) (url : String) (h : Nat) :
    (∀ g' : Gateway, Gateway.dispatch g' "GET" "/health" = GwResponse.status 200) ∧
    (∀ (g' : Gateway) (m u : String), m ≠ "GET" → m ≠ "POST" →
      Gateway.dispatch g' m u = GwResponse.status 405) ∧
    (∀ (g' : Gateway) (u : String), u ≠ "/health" →
      Gateway.dispatch g' "GET" u = GwResponse.status 405) ∧
    (g.routes url = none → Gateway.dispatch g "POST" url = GwResponse.status 404) ∧
    (g.routes url = some h → g.readyRoutes url = false →
      Gateway.dispatch g "POST" url = GwResponse.status 503) ∧
    (g.routes url = some h → g.readyRoutes url = true →
      Gateway.dispatch g "POST" url = GwResponse.handler h) ∧
    (g.routes url = some h →
      Gateway.dispatch (g.markReady url) "POST" url = GwResponse.handler h) := by
  refine ⟨?_, ?_, ?_, ?_, ?_, ?_, ?_⟩
  · intro g'; simp [Gateway.dispatch]
  · intro g' m u hg hp; simp [Gateway.dispatch, hg, hp]
  · intro g' u hu; simp [Gateway.dispatch, hu]
  · intro hr; simp [Gateway.dispatch, hr]
  · intro hr hnr; simp [Gateway.dispatch, hr, hnr]
  · intro hr hready; simp [Gateway.dispatch, hr, hready]
  · intro hr; simp [Gateway.dispatch, Gateway.markReady, hr]

theorem gateway_dispatch_contract_witness :
    ((Gateway.empty.register "/slack/events" 1).routes "/slack/events" = some 1 ∧
     (Gateway.empty.register "/slack/events" 1).readyRoutes "/slack/events" = false) ∧
    (Gateway.dispatch (Gateway.empty.register "/slack/events" 1) "POST"
        "/slack/events" = GwResponse.status 503 ∧
     Gateway.dispatch ((Gateway.empty.register "/slack/events" 1).markReady
        "/slack/events") "POST" "/slack/events" = GwResponse.handler 1 ∧
     Gateway.dispatch (Gateway.empty.register "/slack/events" 1) "GET" "/health" =
        GwResponse.status 200 ∧
     Gateway.dispatch Gateway.empty "POST" "/nope" = GwResponse.status 404) := by
  have h := gateway_dispatch_contract (Gateway.empty.register "/slack/events" 1)
    "/slack/events" 1
  have hroutes : (Gateway.empty.register "/slack/events" 1).routes "/slack/events"
      = some 1 := by
    simp [Gateway.register, Gateway.empty]
  have hready : (Gateway.empty.register "/slack/events" 1).readyRoutes "/slack/events"
      = false := by
    simp [Gateway.register, Gateway.empty]
  refine ⟨⟨hroutes, hready⟩, ?_, ?_, ?_, ?_⟩
  · exact h.2.2.2.2.1 hroutes hready
  · exact h.2.2.2.2.2.2 hroutes
  · exact h.1 _
  · exact (gateway_dispatch_contract Gateway.empty "/nope" 0).2.2.2.1
      (by simp [Gateway.empty])

/-! ## Cross-channel router (`src/tools/send-message.ts`) -/

/-- A platform adapter, as far as routing is concerned: its `name`. -/
structure Adapter where
  name : String
deriving DecidableEq, Repr

/-- JavaScript `s.startsWith(p)`, stated on character lists so that concrete
instances evaluate. -/
def strStartsWith (s p : String) : Bool :=
  p.toList.isPrefixOf s.toList

/-- JavaScript's `/_$/` test: `s` ends with `p`. -/
def strEndsWith (s p : String) : Bool :=
  p.toList.reverse.isPrefixOf s.toList.reverse

/-- The test `/^-?\d+$/.test(channel)`: an optional leading minus followed by
one or more ASCII digits, spanning the whole string. -/
def isNumericId (s : String) : Bool :=
  let t := if strStartsWith s "-" then s.drop 1 else s
  t.length > 0 && t.toList.all (fun c => c.isDigit)

/-- The test `/^[CDG]/.test(channel)`: the first character is C, D or G. -/
def startsWithCDG (s : String) : Bool :=
  match s.toList with
  | [] => false
  | c :: _ => c = 'C' || c = 'D' || c = 'G'

/-- `resolveAdapter` from `src/tools/send-message.ts`: ordered pattern rules,
first match wins — numeric → telegram, C/D/G first character → slack,
`email-` prefix → email, otherwise none. -/
def resolveAdapter (channel : String) (adapters : List Adapter) : Option Adapter :=
  if isNumericId channel then adapters.find? (fun a => a.name == "telegram")
  else if startsWithCDG channel then adapters.find? (fun a => a.name == "slack")
  else if strStartsWith channel "email-" then adapters.find? (fun a => a.name == "email")
  else none

/-- Result of the `send_message` tool's `execute`: it either returned a
structured `{content: [{type: "text", text}]}` result, or an exception
escaped to the Agent Engine. -/
inductive ToolOutcome where
  | result (text : String)
  | raised (msg : String)
deriving DecidableEq, Repr

def ToolOutcome.isResult : ToolOutcome → Bool
  | ToolOutcome.result _ => true
  | ToolOutcome.raised _ => false

/-- The `send_message` `execute` body.  `postResult` stands for the awaited
`adapter.postMessage(channel, text, ...)` (and the `logBotResponse` call in
the same `try` block): `.ok ts` is the returned message handle, `.error e`
an exception message; both the resolution failure and a caught exception are
turned into structured text results. -/
def sendMessageExecute (signalAborted : Bool) (channel _text : String)
    (adapters : List Adapter) (postResult : Except String String) : ToolOutcome :=
  if signalAborted then ToolOutcome.raised "Operation aborted"
  else
    match resolveAdapter channel adapters with
    | none => ToolOutcome.result
        ("No adapter found for channel \"" ++ channel ++
         "\". Available patterns: numeric (Telegram), C/D/G prefix (Slack), email-{address} (Email).")
    | some a =>
      match postResult with
      | Except.ok ts => ToolOutcome.result
          ("Message sent to " ++ a.name ++ " channel " ++ channel ++ " (ts=" ++ ts ++ ")")
      | Except.error e => ToolOutcome.result ("Failed to send: " ++ e)

/-- C8: the router resolves by ordered first-match rules (numeric → telegram,
C/D/G first character → slack, `email-` prefix → email, otherwise none), and
on every non-aborted call of the tool both a failed resolution and a
`postMessage` exception come back as a structured text result — the execute
body never lets them escape as an exception. -/
theorem send_message_routing_and_errors
    (channel text : String) (adapters : List Adapter)
    (postResult : Except String String) :
    (isNumericId channel = true →
      resolveAdapter channel adapters = adapters.find? (fun a => a.name == "telegram")) ∧
    (isNumericId channel = false → startsWithCDG channel = true →
      resolveAdapter channel adapters = adapters.find? (fun a => a.name == "slack")) ∧
    (isNumericId channel = false → startsWithCDG channel = false →
      strStartsWith channel "email-" = true →
      resolveAdapter channel adapters = adapters.find? (fun a => a.name == "email")) ∧
    (isNumericId channel = false → startsWithCDG channel = false →
      strStartsWith channel "email-" = false →
      resolveAdapter channel adapters = none) ∧
    (resolveAdapter channel adapters = none →
      sendMessageExecute false channel text adapters postResult =
        ToolOutcome.result
          ("No adapter found for channel \"" ++ channel ++
           "\". Available patterns: numeric (Telegram), C/D/G prefix (Slack), email-{address} (Email).")) ∧
    (∀ a e, resolveAdapter channel adapters = some a → postResult = Except.error e →
      sendMessageExecute false channel text adapters postResult =
        ToolOutcome.result ("Failed to send: " ++ e)) ∧
    (sendMessageExecute false channel text adapters postResult).isResult = true := by
  refine ⟨?_, ?_, ?_, ?_, ?_, ?_, ?_⟩
  · intro hn; simp [resolveAdapter, hn]
  · intro hn hc; simp [resolveAdapter, hn, hc]
  · intro hn hc he; simp [resolveAdapter, hn, hc, he]
  · intro hn hc he; simp [resolveAdapter, hn, hc, he]
  · intro hr; simp [sendMessageExecute, hr]
  · intro a e hr hp; simp [sendMessageExecute, hr, hp]
  · unfold sendMessageExecute
    cases hr : resolveAdapter channel adapters with
    | none => simp [ToolOutcome.isResult]
    | some a => cases postResult <;> simp [ToolOutcome.isResult]

theorem send_message_routing_and_errors_witness :
    (isNumericId "-100123" = true ∧
     isNumericId "C042" = false ∧ startsWithCDG "C042" = true ∧
     isNumericId "email-a@b.c" = false ∧ startsWithCDG "email-a@b.c" = false ∧
     strStartsWith "email-a@b.c" "email-" = true ∧
     isNumericId "zzz" = false ∧ startsWithCDG "zzz" = false ∧
     strStartsWith "zzz" "email-" = false) ∧
    (resolveAdapter "-100123" [Adapter.mk "telegram", Adapter.mk "slack"] =
       some (Adapter.mk "telegram") ∧
     resolveAdapter "C042" [Adapter.mk "telegram", Adapter.mk "slack"] =
       some (Adapter.mk "slack") ∧
     resolveAdapter "email-a@b.c" [Adapter.mk "email"] = some (Adapter.mk "email") ∧
     resolveAdapter "zzz" [Adapter.mk "telegram", Adapter.mk "slack"] = none ∧
     sendMessageExecute false "zzz" "hi" [Adapter.mk "telegram", Adapter.mk "slack"]
       (Except.ok "1") =
       ToolOutcome.result
         ("No adapter found for channel \"zzz\". Available patterns: numeric (Telegram), C/D/G prefix (Slack), email-{address} (Email).") ∧
     sendMessageExecute false "-100123" "hi" [Adapter.mk "telegram"]
       (Except.error "boom") = ToolOutcome.result "Failed to send: boom" ∧
     (sendMessageExecute false "-100123" "hi" [Adapter.mk "telegram"]
       (Except.error "boom")).isResult = true) := by
  have h1 := send_message_routing_and_errors "-100123" "hi" [Adapter.mk "telegram", Adapter.mk "slack"] (Except.ok "1")
  have h2 := send_message_routing_and_errors "C042" "hi" [Adapter.mk "telegram", Adapter.mk "slack"] (Except.ok "1")
  have h3 := send_message_routing_and_errors "email-a@b.c" "hi" [Adapter.mk "email"] (Except.ok "1")
  have h4 := send_message_routing_and_errors "zzz" "hi" [Adapter.mk "telegram", Adapter.mk "slack"] (Except.ok "1")
  have h5 := send_message_routing_and_errors "-100123" "hi" [Adapter.mk "telegram"] (Except.error "boom")
  refine ⟨by decide, ?_, ?_, ?_, ?_, ?_, ?_, ?_⟩
  · have := h1.1 (by decide); simpa using this
  · have := h2.2.1 (by decide) (by decide); simpa using this
  · have := h3.2.2.1 (by decide) (by decide) (by decide); simpa using this
  · exact h4.2.2.2.1 (by decide) (by decide) (by decide)
  · exact h4.2.2.2.2.1 (h4.2.2.2.1 (by decide) (by decide) (by decide))
  · exact h5.2.2.2.2.2.1 (Adapter.mk "telegram") "boom"
      (by have := h5.1 (by decide); simpa using this) rfl
  · exact h5.2.2.2.2.2.2

/-! ## Per-conversation work queue (`TelegramBase.enqueueWork` / `processQueue`)

`processQueue` pops the front closure and `await`s it inside a
`try`/`catch` before popping the next.  A work item is modelled by its
identifier, the number of its internal suspension points, and whether it
throws; executing it emits an event trace. -/

inductive QEvt where
  | start (id : Nat)
  | step (id : Nat)
  | fin (id : Nat)
  | raise (id : Nat)
  | logErr (id : Nat)
deriving DecidableEq, Repr

structure WorkItem where
  id : Nat
  steps : Nat
  throws : Bool
deriving DecidableEq, Repr

/-- `await work()`: the closure starts, suspends `steps` times, and either
returns or throws. -/
def runWork (w : WorkItem) : List QEvt :=
  QEvt.start w.id ::
    (List.replicate w.steps (QEvt.step w.id) ++
     [if w.throws then QEvt.raise w.id else QEvt.fin w.id])

/-- `TelegramBase.processQueue`: `while (queue.length > 0) { const work =
queue.shift()!; try { await work(); } catch (err) { log.logWarning(...) } }`.
The catch turns a raised item into a logged warning and the loop continues. -/
def processQueue : List WorkItem → List QEvt
  | [] => []
  | w :: rest =>
      (runWork w ++ if w.throws then [QEvt.logErr w.id] else []) ++ processQueue rest

/-- The ids of the `start` events of a trace, in order. -/
def startIds (t : List QEvt) : List Nat :=
  t.filterMap (fun e => match e with | QEvt.start i => some i | _ => none)

/-- A trace is strictly sequential: a work item starts only when no item is
open, every `step` belongs to the open item, and an open item is closed by its
own `fin`/`raise` before anything else happens. -/
def wellSeq : Option Nat → List QEvt → Bool
  | none, [] => true
  | none, QEvt.start i :: rest => wellSeq (some i) rest
  | none, QEvt.logErr _ :: rest => wellSeq none rest
  | none, _ => false
  | some i, QEvt.step j :: rest => i == j && wellSeq (some i) rest
  | some i, QEvt.fin j :: rest => i == j && wellSeq none rest
  | some i, QEvt.raise j :: rest => i == j && wellSeq none rest
  | some _, _ => false

theorem wellSeq_steps (i n : Nat) (rest : List QEvt) :
    wellSeq (some i) (List.replicate n (QEvt.step i) ++ rest) =
    wellSeq (some i) rest := by
  induction n with
  | zero => simp
  | succ k ih => simpa [List.replicate_succ, wellSeq] using ih

theorem wellSeq_runWork (w : WorkItem) (rest : List QEvt) :
    wellSeq none ((runWork w ++ if w.throws then [QEvt.logErr w.id] else []) ++ rest)
      = wellSeq none rest := by
  cases hthrows : w.throws with
  | false =>
      have he : (runWork w ++ if false = true then [QEvt.logErr w.id] else []) ++ rest
          = QEvt.start w.id ::
              (List.replicate w.steps (QEvt.step w.id) ++ (QEvt.fin w.id :: rest)) := by
        simp [runWork, hthrows]
      rw [he]
      simp only [wellSeq]
      rw [wellSeq_steps]
      simp [wellSeq]
  | true =>
      have he : (runWork w ++ if true = true then [QEvt.logErr w.id] else []) ++ rest
          = QEvt.start w.id ::
              (List.replicate w.steps (QEvt.step w.id) ++
                (QEvt.raise w.id :: QEvt.logErr w.id :: rest)) := by
        simp [runWork, hthrows]
      rw [he]
      simp only [wellSeq]
      rw [wellSeq_steps]
      simp [wellSeq]

/-- C5: the drain loop is FIFO and strictly sequential, and exceptions do not
stop it: the execution trace is well sequenced (an item starts only after the
previous item fully completed or raised, and all its internal steps happen
while it alone is open); items start exactly in enqueue order, every enqueued
item — even those behind a throwing item — starts; and every throwing item's
exception is caught and logged. -/
theorem processQueue_fifo_sequential (q : List WorkItem) :
    wellSeq none (processQueue q) = true ∧
    startIds (processQueue q) = q.map WorkItem.id ∧
    (∀ w ∈ q, w.throws = true → QEvt.logErr w.id ∈ processQueue q) := by
  refine ⟨?_, ?_, ?_⟩
  · induction q with
    | nil => simp [processQueue, wellSeq]
    | cons w rest ih => rw [processQueue, wellSeq_runWork]; exact ih
  · induction q with
    | nil => simp [processQueue, startIds]
    | cons w rest ih =>
        cases hthrows : w.throws <;>
          simp [processQueue, startIds, runWork, hthrows, List.filterMap_append,
            List.filterMap_replicate, ih.symm]
  · induction q with
    | nil => intro w hw; cases hw
    | cons v rest ih =>
        intro w hw hthrows
        rcases List.mem_cons.mp hw with hveq | hmem
        · subst hveq
          simp [processQueue, hthrows]
        · simp only [processQueue, List.mem_append]
          exact Or.inr (ih w hmem hthrows)

theorem processQueue_fifo_sequential_witness :
    ((WorkItem.mk 1 0 true) ∈ [WorkItem.mk 0 2 false, WorkItem.mk 1 0 true,
        WorkItem.mk 2 1 false] ∧ (WorkItem.mk 1 0 true).throws = true) ∧
    (wellSeq none (processQueue [WorkItem.mk 0 2 false, WorkItem.mk 1 0 true,
        WorkItem.mk 2 1 false]) = true ∧
     startIds (processQueue [WorkItem.mk 0 2 false, WorkItem.mk 1 0 true,
        WorkItem.mk 2 1 false]) = [0, 1, 2] ∧
     QEvt.logErr 1 ∈ processQueue [WorkItem.mk 0 2 false, WorkItem.mk 1 0 true,
        WorkItem.mk 2 1 false]) := by
  have h := processQueue_fifo_sequential
    [WorkItem.mk 0 2 false, WorkItem.mk 1 0 true, WorkItem.mk 2 1 false]
  exact ⟨⟨by decide, rfl⟩, h.1, h.2.1,
    h.2.2 (WorkItem.mk 1 0 true) (by decide) rfl⟩

/-! ## Bounded event queue (`TelegramBase.enqueueEvent`)

`enqueueEvent` rejects when the pending array already holds 5 closures,
otherwise it appends via `enqueueWork`, which synchronously kicks
`processQueue`; `processQueue` *shifts* the front closure out of the array
before awaiting it.  The model below is the system under the claim's
scenario: a non-draining consumer, i.e. the awaited closure never resolves,
so the synchronous prefix of `processQueue` runs and then blocks forever. -/

structure BQState where
  queue : List Nat
  processing : Bool
  inFlight : Option Nat
  started : List Nat
deriving DecidableEq, Repr

def initBQ : BQState := ⟨[], false, none, []⟩

/-- One call of `enqueueEvent` under a blocked consumer: capacity check
against the pending array, append, and — when no drain is marked running —
the drain synchronously shifts the front item out of the array, starts it and
blocks on its `await`. -/
def enqueueEventBlocked (s : BQState) (id : Nat) : BQState × Bool :=
  if s.queue.length ≥ 5 then (s, false)
  else
    let q := s.queue ++ [id]
    if s.processing then ({ s with queue := q }, true)
    else
      match q with
      | [] => ({ s with queue := q, processing := true }, true)
      | w :: rest =>
          ({ queue := rest, processing := true, inFlight := some w,
             started := s.started ++ [w] }, true)

def enqueueAllBlocked (s : BQState) : List Nat → BQState × List Bool
  | [] => (s, [])
  | id :: ids =>
      let r := enqueueEventBlocked s id
      let rest := enqueueAllBlocked r.1 ids
      (rest.1, r.2 :: rest.2)

/-- C2 counterexample: with capacity 5 and a blocked consumer, the sixth
`enqueueEvent` call for one conversation returns `true` — not `false` as the
claim states — because the drain already shifted the first item out of the
pending array before blocking on it; and only that first item has ever
started executing, not five. -/
theorem enqueueEvent_sixth_accepted :
    (enqueueAllBlocked initBQ [0, 1, 2, 3, 4, 5]).2 =
      [true, true, true, true, true, true] ∧
    (enqueueAllBlocked initBQ [0, 1, 2, 3, 4, 5]).1.started = [0] ∧
    (enqueueAllBlocked initBQ [0, 1, 2, 3, 4, 5]).1.queue = [1, 2, 3, 4, 5] := by
  decide

/-- C2 (amended): under a blocked consumer it takes capacity + 2 = 7
`enqueueEvent` calls to observe a rejection — the first six are accepted (one
shifted in flight, five pending) and the seventh returns `false` immediately;
the pending array never exceeds the capacity of 5, and a rejected attempt
leaves the state untouched (no blocking, no eviction). -/
theorem enqueueEvent_capacity (s : BQState) (id : Nat) :
    ((enqueueAllBlocked initBQ [0, 1, 2, 3, 4, 5, 6]).2 =
      [true, true, true, true, true, true, false]) ∧
    (s.queue.length ≤ 5 → ((enqueueEventBlocked s id).1).queue.length ≤ 5) ∧
    (5 ≤ s.queue.length → enqueueEventBlocked s id = (s, false)) := by
  refine ⟨by decide, ?_, ?_⟩
  · intro hle
    unfold enqueueEventBlocked
    by_cases hge : s.queue.length ≥ 5
    · simp only [hge, if_true, ite_true]
      exact hle
    · have hlt : s.queue.length ≤ 4 := by omega
      by_cases hp : s.processing
      · simp [hge, hp]
        omega
      · cases hq : s.queue ++ [id] with
        | nil => simp at hq
        | cons w rest =>
            have hlen : rest.length ≤ 4 := by
              have := congrArg List.length hq
              simp at this
              omega
            simp [hge, hp, hq]
            omega
  · intro hge
    unfold enqueueEventBlocked
    simp [hge]

theorem enqueueEvent_capacity_witness :
    ((⟨[9, 9, 9], true, some 0, [0]⟩ : BQState).queue.length ≤ 5 ∧
     5 ≤ (⟨[9, 9, 9, 9, 9], true, some 0, [0]⟩ : BQState).queue.length) ∧
    ((enqueueAllBlocked initBQ [0, 1, 2, 3, 4, 5, 6]).2 =
      [true, true, true, true, true, true, false] ∧
     ((enqueueEventBlocked ⟨[9, 9, 9], true, some 0, [0]⟩ 7).1).queue.length ≤ 5 ∧
     enqueueEventBlocked ⟨[9, 9, 9, 9, 9], true, some 0, [0]⟩ 7 =
       (⟨[9, 9, 9, 9, 9], true, some 0, [0]⟩, false)) := by
  have h1 := enqueueEvent_capacity ⟨[9, 9, 9], true, some 0, [0]⟩ 7
  have h2 := enqueueEvent_capacity ⟨[9, 9, 9, 9, 9], true, some 0, [0]⟩ 7
  exact ⟨⟨by decide, by decide⟩, h1.1, h1.2.1 (by decide), h2.2.2 (by decide)⟩

/-! ## Run lifecycle (`handler.handleEvent`, queue-serialized per conversation)

One `handleEvent` invocation synchronously sets `state.running = true`
(`begin`), suspends at its awaited boundaries (`obs` — `setTyping`,
`setWorking`, `runner.run`, the stop finalize; on a thrown run the awaits
reached before the throw), and its `finally` block sets `running = false`
(`fin`) on every path — completed, aborted and thrown alike.  All
`handleEvent` work for one conversation goes through `enqueueWork`, whose
drain awaits each item's full completion before popping the next, so the
conversation's observable event trace is the concatenation of whole run
blocks. -/

inductive RunEvt where
  | begin (k : Nat)
  | obs (k : Nat)
  | fin (k : Nat)
deriving DecidableEq, Repr

/-- One run: its identifier and how many awaited suspension points the
executed path contains (whatever the outcome). -/
structure RunSpec where
  k : Nat
  susp : Nat
deriving DecidableEq, Repr

def runTrace (r : RunSpec) : List RunEvt :=
  RunEvt.begin r.k :: (List.replicate r.susp (RunEvt.obs r.k) ++ [RunEvt.fin r.k])

/-- The conversation's serialized trace: one whole run block after another
(the queue's drain loop awaits each `handleEvent` to completion). -/
def serialRuns : List RunSpec → List RunEvt
  | [] => []
  | r :: rest => runTrace r ++ serialRuns rest

/-- The stack of runs that have begun but not completed. -/
def stepOpen (acc : List Nat) : RunEvt → List Nat
  | RunEvt.begin k => k :: acc
  | RunEvt.obs _ => acc
  | RunEvt.fin _ => acc.tail

def openRunsFrom (acc : List Nat) (t : List RunEvt) : List Nat :=
  t.foldl stepOpen acc

def openRuns (t : List RunEvt) : List Nat := openRunsFrom [] t

/-- The `running` flag of the channel state: set by the synchronous start of
`handleEvent`, cleared by its `finally`, untouched at suspension points. -/
def stepRunning (b : Bool) : RunEvt → Bool
  | RunEvt.begin _ => true
  | RunEvt.obs _ => b
  | RunEvt.fin _ => false

def runningAfterFrom (b : Bool) (t : List RunEvt) : Bool :=
  t.foldl stepRunning b

/-- The value `isRunning` reports after the instants in `t`, starting idle. -/
def runningAfter (t : List RunEvt) : Bool := runningAfterFrom false t

theorem prefix_append_cases {α : Type} {p a b : List α} (h : p <+: a ++ b) :
    p <+: a ∨ ∃ q, q <+: b ∧ p = a ++ q := by
  induction a generalizing p with
  | nil =>
      right
      exact ⟨p, by simpa using h, by simp⟩
  | cons x a ih =>
      cases p with
      | nil => left; exact List.nil_prefix
      | cons y p =>
          rw [List.cons_append, List.cons_prefix_cons] at h
          rcases h with ⟨rfl, h⟩
          rcases ih h with h | ⟨q, hq, rfl⟩
          · left; exact List.cons_prefix_cons.mpr ⟨rfl, h⟩
          · right; exact ⟨q, hq, by simp⟩

theorem prefix_replicate {α : Type} {p : List α} {n : Nat} {x : α}
    (h : p <+: List.replicate n x) : p = List.replicate p.length x := by
  induction n generalizing p with
  | zero =>
      rcases h with ⟨t, ht⟩
      rcases List.append_eq_nil.mp (by simpa using ht) with ⟨rfl, -⟩
      simp
  | succ m ih =>
      cases p with
      | nil => simp
      | cons y p =>
          rw [List.replicate_succ, List.cons_prefix_cons] at h
          rcases h with ⟨hyx, h⟩
          rw [List.length_cons, List.replicate_succ, hyx]
          exact congrArg (List.cons _) (ih h)

theorem prefix_singleton {α : Type} {p : List α} {x : α} (h : p <+: [x]) :
    p = [] ∨ p = [x] := by
  cases p with
  | nil => exact Or.inl rfl
  | cons y p =>
      rw [List.cons_prefix_cons] at h
      rcases h with ⟨rfl, h⟩
      rcases h with ⟨t, ht⟩
      rcases List.append_eq_nil.mp (by simpa using ht) with ⟨rfl, -⟩
      exact Or.inr rfl

theorem foldl_stepOpen_replicate (k n : Nat) (acc : List Nat) :
    List.foldl stepOpen acc (List.replicate n (RunEvt.obs k)) = acc := by
  induction n with
  | zero => rfl
  | succ m ih => simpa [List.replicate_succ, stepOpen] using ih

theorem foldl_stepRunning_replicate (k n : Nat) (b : Bool) :
    List.foldl stepRunning b (List.replicate n (RunEvt.obs k)) = b := by
  induction n with
  | zero => rfl
  | succ m ih => simpa [List.replicate_succ, stepRunning] using ih

theorem foldl_stepOpen_block (r : RunSpec) (acc : List Nat) :
    List.foldl stepOpen acc (runTrace r) = acc := by
  simp [runTrace, List.foldl_append, stepOpen, foldl_stepOpen_replicate]

theorem foldl_stepRunning_block (r : RunSpec) (b : Bool) :
    List.foldl stepRunning b (runTrace r) = false := by
  simp [runTrace, List.foldl_append, stepRunning, foldl_stepRunning_replicate]

/-- C1: along every prefix of a conversation's serialized trace, at most one
run is open at any instant (two runs of one conversation never overlap), and
the `running` flag read by `isRunning` is `true` exactly while a run is open —
i.e. strictly between that run's `begin` (`state.running = true` in
`handleEvent`) and its `fin` (the `finally` clearing it, reached also when
the agent run throws or is aborted) — and `false` at every other instant. -/
theorem running_exactly_between (rs : List RunSpec) (p : List RunEvt)
    (hp : p <+: serialRuns rs) :
    (openRuns p).length ≤ 1 ∧
    (runningAfter p = true ↔ openRuns p ≠ []) := by
  induction rs generalizing p with
  | nil =>
      rcases hp with ⟨t, ht⟩
      rcases List.append_eq_nil.mp (by simpa [serialRuns] using ht) with ⟨rfl, -⟩
      simp [openRuns, openRunsFrom, runningAfter, runningAfterFrom]
  | cons r rest ih =>
      rw [serialRuns] at hp
      rcases prefix_append_cases hp with hpre | ⟨q, hq, rfl⟩
      · -- p lies inside the first run block
        cases p with
        | nil => simp [openRuns, openRunsFrom, runningAfter, runningAfterFrom]
        | cons y p' =>
            rw [runTrace, List.cons_prefix_cons] at hpre
            rcases hpre with ⟨rfl, hpre⟩
            rcases prefix_append_cases hpre with hobs | ⟨q', hq', rfl⟩
            · -- inside the suspension points: exactly the run r.k is open
              obtain ⟨m, rfl⟩ : ∃ m, p' = List.replicate m (RunEvt.obs r.k) :=
                ⟨p'.length, prefix_replicate hobs⟩
              constructor
              · simp [openRuns, openRunsFrom, stepOpen, foldl_stepOpen_replicate]
              · simp [openRuns, openRunsFrom, stepOpen, runningAfter,
                  runningAfterFrom, stepRunning, foldl_stepOpen_replicate,
                  foldl_stepRunning_replicate]
            · rcases prefix_singleton hq' with rfl | rfl
              · -- all suspension points, `fin` not yet reached
                constructor
                · simp [openRuns, openRunsFrom, stepOpen, foldl_stepOpen_replicate]
                · simp [openRuns, openRunsFrom, stepOpen, runningAfter,
                    runningAfterFrom, stepRunning, foldl_stepOpen_replicate,
                    foldl_stepRunning_replicate]
              · -- the whole block: back to idle
                have hopen : List.foldl stepOpen ([] : List Nat)
                    (RunEvt.begin r.k ::
                      (List.replicate r.susp (RunEvt.obs r.k) ++ [RunEvt.fin r.k]))
                    = [] := foldl_stepOpen_block r []
                have hrun : List.foldl stepRunning false
                    (RunEvt.begin r.k ::
                      (List.replicate r.susp (RunEvt.obs r.k) ++ [RunEvt.fin r.k]))
                    = false := foldl_stepRunning_block r false
                refine ⟨?_, ?_⟩
                · simp [openRuns, openRunsFrom, hopen]
                · simp [openRuns, openRunsFrom, runningAfter, runningAfterFrom,
                    hopen, hrun]
      · -- p extends past the first block: the block leaves the state idle
        have hopen : openRuns (runTrace r ++ q) = openRuns q := by
          simp only [openRuns, openRunsFrom, List.foldl_append,
            foldl_stepOpen_block]
        have hrun : runningAfter (runTrace r ++ q) = runningAfter q := by
          simp only [runningAfter, runningAfterFrom, List.foldl_append,
            foldl_stepRunning_block]
        rw [hopen, hrun]
        exact ih q hq

theorem running_exactly_between_witness :
    ([RunEvt.begin 0, RunEvt.obs 0] <+:
      serialRuns [RunSpec.mk 0 2, RunSpec.mk 1 1]) ∧
    ((openRuns [RunEvt.begin 0, RunEvt.obs 0]).length ≤ 1 ∧
     (runningAfter [RunEvt.begin 0, RunEvt.obs 0] = true ↔
      openRuns [RunEvt.begin 0, RunEvt.obs 0] ≠ [])) :=
  ⟨by decide, running_exactly_between [RunSpec.mk 0 2, RunSpec.mk 1 1]
    [RunEvt.begin 0, RunEvt.obs 0] (by decide)⟩

/-! ## Inbound webhook dispatch (C9)

`TelegramWebhookAdapter.handleRequest` and `SlackWebhookAdapter.dispatch`
validate the request before anything event-shaped is produced.  A response
and the list of events forwarded toward the per-conversation queue. -/

structure WebhookResult (υ : Type) where
  status : Nat
  forwarded : List υ
deriving DecidableEq, Repr

/-- `TelegramWebhookAdapter.handleRequest`: non-POST or wrong path → 404; a
missing or falsy or mismatched `x-telegram-bot-api-secret-token` header → 401;
a body `JSON.parse` rejects → 400; otherwise 200 and the update is handed to
`bot.processUpdate` (which fires `handleIncomingMessage`).  `bodyJson` is the
`JSON.parse` result: `none` when the body is not valid JSON.  An empty header
string is falsy in JavaScript, hence also 401. -/
def tgHandleRequest (secret : String) (method url : String)
    (secretHeader : Option String) (bodyJson : Option Nat) : WebhookResult Nat :=
  if method ≠ "POST" ∨ url ≠ "/telegram/webhook" then ⟨404, []⟩
  else
    match secretHeader with
    | none => ⟨401, []⟩
    | some t =>
        if t = "" ∨ t ≠ secret then ⟨401, []⟩
        else
          match bodyJson with
          | none => ⟨400, []⟩
          | some u => ⟨200, [u]⟩

/-- `event` field of a Slack Events API payload. -/
structure SlackInner where
  etype : String
  channel : String
  channel_type : Option String
  user : Option String
  bot_id : Option String
  text : Option String
  ts : String
  subtype : Option String
deriving DecidableEq, Repr

structure SlackPayload where
  ptype : String
  challenge : Option String
  event : Option SlackInner
deriving DecidableEq, Repr

/-- `SlackWebhookAdapter.dispatchEvent`: answers the URL-verification
challenge, acks with 200, and forwards the inner event to
`handleAppMention`/`handleMessage` only when it passes the bot/user/subtype
filters. -/
def slackDispatchEvent (botUserId : String) (p : SlackPayload) :
    WebhookResult SlackInner :=
  if p.ptype = "url_verification" then ⟨200, []⟩
  else if p.ptype ≠ "event_callback" then ⟨200, []⟩
  else
    match p.event with
    | none => ⟨200, []⟩
    | some e =>
        if e.bot_id ≠ none ∨ e.user = none ∨ e.user = some botUserId then ⟨200, []⟩
        else if e.subtype ≠ none ∧ e.subtype ≠ some "file_share" then ⟨200, []⟩
        else if e.etype = "app_mention" ∨ e.etype = "message" then ⟨200, [e]⟩
        else ⟨200, []⟩

/-- `SlackWebhookAdapter.dispatch` after the body has been read: missing (or
falsy-empty) signature headers → 401; a timestamp more than five minutes from
now → 401 (`tooOld` abstracts the clock comparison); an HMAC signature that
does not verify → 401 (`sigValid` abstracts
`timingSafeEqual(hmac(secret, body), signature)`); a body `JSON.parse`
rejects → 400; otherwise `dispatchEvent`. -/
def slackDispatch (botUserId : String) (timestamp signature : Option String)
    (tooOld sigValid : Bool) (bodyJson : Option SlackPayload) :
    WebhookResult SlackInner :=
  match timestamp, signature with
  | some t, some sg =>
      if t = "" ∨ sg = "" then ⟨401, []⟩
      else if tooOld then ⟨401, []⟩
      else if sigValid = false then ⟨401, []⟩
      else
        match bodyJson with
        | none => ⟨400, []⟩
        | some p => slackDispatchEvent botUserId p
  | _, _ => ⟨401, []⟩

/-- C9: every protocol-level error on an inbound webhook request is rejected
at the adapter boundary with the right 4xx status — 401 for a missing or
mismatched Telegram secret token and for missing or invalid Slack signatures,
400 for a body that is not valid JSON — and no event derived from such a
request is ever forwarded toward the per-conversation queue or the handler. -/
theorem webhook_protocol_errors_rejected
    (secret botUserId : String) (hsecret : secret ≠ "") :
    (∀ body, tgHandleRequest secret "POST" "/telegram/webhook" none body =
      ⟨401, []⟩) ∧
    (∀ t body, t ≠ secret →
      tgHandleRequest secret "POST" "/telegram/webhook" (some t) body =
        ⟨401, []⟩) ∧
    (tgHandleRequest secret "POST" "/telegram/webhook" (some secret) none =
      ⟨400, []⟩) ∧
    (∀ sg tooOld sigValid body,
      slackDispatch botUserId none sg tooOld sigValid body = ⟨401, []⟩) ∧
    (∀ t tooOld sigValid body,
      slackDispatch botUserId t none tooOld sigValid body = ⟨401, []⟩) ∧
    (∀ t sg tooOld body, t ≠ "" → sg ≠ "" →
      slackDispatch botUserId (some t) (some sg) tooOld false body =
        ⟨401, []⟩) ∧
    (∀ t sg, t ≠ "" → sg ≠ "" →
      slackDispatch botUserId (some t) (some sg) false true none = ⟨400, []⟩) := by
  refine ⟨?_, ?_, ?_, ?_, ?_, ?_, ?_⟩
  · intro body; simp [tgHandleRequest]
  · intro t body ht; simp [tgHandleRequest, ht]
  · simp [tgHandleRequest, hsecret]
  · intro sg tooOld sigValid body; cases sg <;> simp [slackDispatch]
  · intro t tooOld sigValid body; cases t <;> simp [slackDispatch]
  · intro t sg tooOld body ht hsg
    cases tooOld <;> simp [slackDispatch, ht, hsg]
  · intro t sg ht hsg; simp [slackDispatch, ht, hsg]

theorem webhook_protocol_errors_rejected_witness :
    (("s3cret" : String) ≠ "" ∧ ("wrong" : String) ≠ ("s3cret" : String) ∧
     ("12" : String) ≠ "" ∧ ("v0=aa" : String) ≠ "") ∧
    (tgHandleRequest "s3cret" "POST" "/telegram/webhook" none (some 0) =
      ⟨401, []⟩ ∧
     tgHandleRequest "s3cret" "POST" "/telegram/webhook" (some "wrong") (some 0) =
      ⟨401, []⟩ ∧
     tgHandleRequest "s3cret" "POST" "/telegram/webhook" (some "s3cret") none =
      ⟨400, []⟩ ∧
     slackDispatch "U0" none (some "v0=aa") false true (some ⟨"event_callback", none, none⟩) =
      ⟨401, []⟩ ∧
     slackDispatch "U0" (some "12") (some "v0=aa") false false
       (some ⟨"event_callback", none, none⟩) = ⟨401, []⟩ ∧
     slackDispatch "U0" (some "12") (some "v0=aa") false true none = ⟨400, []⟩) := by
  have h := webhook_protocol_errors_rejected "s3cret" "U0" (by decide)
  refine ⟨⟨by decide, by decide, by decide, by decide⟩, ?_, ?_, ?_, ?_, ?_, ?_⟩
  · exact h.1 (some 0)
  · exact h.2.1 "wrong" (some 0) (by decide)
  · exact h.2.2.1
  · exact h.2.2.2.1 (some "v0=aa") false true (some ⟨"event_callback", none, none⟩)
  · exact h.2.2.2.2.2.1 "12" "v0=aa" false (some ⟨"event_callback", none, none⟩)
      (by decide) (by decide)
  · exact h.2.2.2.2.2.2 "12" "v0=aa" (by decide) (by decide)

/-! ## Telegram rendering context (`TelegramBase.createContext`)

The context closes over `messageId`, `finalText`, `isWorking`, the rolling
`recentTools` window, `completedToolCount`, and a single `updatePromise`
chain.  Every public call appends its body to that chain; the bodies are
modelled as `Task`s executed against `CtxState`. -/

/-- `escapeHtml`: `&` → `&amp;`, `<` → `&lt;`, `>` → `&gt;`.  The three
sequential `String.replace` calls of the source amount to this per-character
substitution, since the replacement texts contain none of the later
patterns. -/
def escapeHtmlChar (c : Char) : List Char :=
  if c = '&' then "&amp;".toList
  else if c = '<' then "&lt;".toList
  else if c = '>' then "&gt;".toList
  else [c]

def escapeHtml (s : String) : String :=
  String.mk ((s.toList.map escapeHtmlChar).flatten)

/-- `text.replace(/^_/, "")`. -/
def stripLeadUnderscore (s : String) : String :=
  if strStartsWith s "_" then s.drop 1 else s

/-- `.replace(/_$/, "")`. -/
def stripTrailUnderscore (s : String) : String :=
  if strEndsWith s "_" then String.mk s.toList.dropLast else s

/-- The entry pushed into `recentTools` for a tool label `text`:
`"<i>" + escapeHtml(label) + "</i>"`. -/
def toolEntry (text : String) : String :=
  "<i>" ++ escapeHtml (stripTrailUnderscore (stripLeadUnderscore text)) ++ "</i>"

/-- Per-run configuration captured by `createContext`. -/
structure CtxConfig where
  channel : String
  eventFilename : Option String
deriving DecidableEq, Repr

/-- The mutable locals of one `createContext` instance. -/
structure CtxState where
  messageId : Option String
  finalText : String
  isWorking : Bool
  recentTools : List String
  completedToolCount : Nat
deriving DecidableEq, Repr

/-- Initial values: `messageId = null`, `finalText = ""`, `isWorking = true`,
empty window, zero completed count. -/
def initCtxState : CtxState := ⟨none, "", true, [], 0⟩

/-- `buildStatusDisplay`: header with the completed count when positive, then
the (at most three) recent tool entries; when empty, the event banner or
`"<i>Thinking</i>"`. -/
def buildStatusDisplay (cfg : CtxConfig) (s : CtxState) : String :=
  let header : List String :=
    if s.completedToolCount > 0 then
      ["<i>" ++ toString s.completedToolCount ++ " tool call" ++
        (if s.completedToolCount > 1 then "s" else "") ++ " completed</i>"]
    else []
  let lines := header ++ s.recentTools
  if lines = [] then
    match cfg.eventFilename with
    | some f => "<i>Starting event: " ++ escapeHtml f ++ "</i>"
    | none => "<i>Thinking</i>"
  else String.intercalate "\n" lines

/-- Result of executing one chained task: the new state, the platform
operations it performed (in order), and the next fresh message id. -/
structure ExecResult where
  state : CtxState
  ops : List PlatformOp
  nextTs : Nat
deriving DecidableEq, Repr

/-- The text `updateDisplay` computes:
`isWorking ? buildStatusDisplay() + " ..." : finalText || buildStatusDisplay()`. -/
def displayText (cfg : CtxConfig) (s : CtxState) : String :=
  if s.isWorking then buildStatusDisplay cfg s ++ " ..."
  else if s.finalText ≠ "" then s.finalText else buildStatusDisplay cfg s

/-- `updateDisplay`: edit the single message if one exists, else post it
(recording the returned id) when the display text is non-empty. -/
def updateDisplay (cfg : CtxConfig) (s : CtxState) (ts : Nat) : ExecResult :=
  match s.messageId with
  | some mid => ⟨s, [PlatformOp.update cfg.channel mid (displayText cfg s)], ts⟩
  | none =>
      if displayText cfg s ≠ "" then
        ⟨{ s with messageId := some (toString ts) },
         [PlatformOp.post cfg.channel (displayText cfg s)], ts + 1⟩
      else ⟨s, [], ts⟩

/-- One closure chained onto `updatePromise`. -/
inductive Task where
  | respondTask (text : String) (shouldLog : Bool)
  | replaceTask (text : String)
  | typingTask
  | workingTask (working : Bool)
  | deleteTask
deriving DecidableEq, Repr

/-- The body of each chained closure, as written in `createContext`. -/
def execTask (cfg : CtxConfig) (s : CtxState) (ts : Nat) : Task → ExecResult
  | Task.respondTask text shouldLog =>
      if !shouldLog && strStartsWith text "_→" then
        let pushed :=
          if s.recentTools.length ≥ 3 then
            { s with recentTools := s.recentTools.tail ++ [toolEntry text],
                     completedToolCount := s.completedToolCount + 1 }
          else
            { s with recentTools := s.recentTools ++ [toolEntry text] }
        updateDisplay cfg pushed ts
      else if !shouldLog then
        updateDisplay cfg s ts
      else
        updateDisplay cfg
          { s with finalText :=
              if s.finalText ≠ "" then s.finalText ++ "\n" ++ text else text } ts
  | Task.replaceTask text =>
      updateDisplay cfg { s with finalText := text } ts
  | Task.typingTask =>
      match s.messageId with
      | some _ => ⟨s, [], ts⟩
      | none =>
          ⟨{ s with messageId := some (toString ts) },
           [PlatformOp.chatAction cfg.channel,
            PlatformOp.post cfg.channel (buildStatusDisplay cfg s ++ " ...")],
           ts + 1⟩
  | Task.workingTask working =>
      let s' :=
        if working = false then
          { s with isWorking := working,
                   completedToolCount := s.completedToolCount + s.recentTools.length,
                   recentTools := [] }
        else { s with isWorking := working }
      updateDisplay cfg s' ts
  | Task.deleteTask =>
      match s.messageId with
      | some mid =>
          ⟨{ s with messageId := none }, [PlatformOp.delete cfg.channel mid], ts⟩
      | none => ⟨s, [], ts⟩

/-- Sequential execution of chained tasks, threading state and id supply. -/
def execTasks (cfg : CtxConfig) (s : CtxState) (ts : Nat) : List Task → CtxState
  | [] => s
  | t :: rest =>
      let r := execTask cfg s ts t
      execTasks cfg r.state r.nextTs rest

theorem updateDisplay_state_cases (cfg : CtxConfig) (s : CtxState) (ts : Nat) :
    (updateDisplay cfg s ts).state = s ∨
    (updateDisplay cfg s ts).state = { s with messageId := some (toString ts) } := by
  unfold updateDisplay
  cases s.messageId with
  | some mid => exact Or.inl rfl
  | none =>
      by_cases hd : displayText cfg s ≠ ""
      · rw [if_pos hd]; exact Or.inr rfl
      · rw [if_neg hd]; exact Or.inl rfl

theorem updateDisplay_recentTools (cfg : CtxConfig) (s : CtxState) (ts : Nat) :
    (updateDisplay cfg s ts).state.recentTools = s.recentTools := by
  rcases updateDisplay_state_cases cfg s ts with h | h <;> rw [h]

theorem updateDisplay_completed (cfg : CtxConfig) (s : CtxState) (ts : Nat) :
    (updateDisplay cfg s ts).state.completedToolCount = s.completedToolCount := by
  rcases updateDisplay_state_cases cfg s ts with h | h <;> rw [h]

theorem execTask_recentTools_le (cfg : CtxConfig) (s : CtxState) (ts : Nat)
    (t : Task) (h : s.recentTools.length ≤ 3) :
    (execTask cfg s ts t).state.recentTools.length ≤ 3 := by
  cases t with
  | respondTask text shouldLog =>
      simp only [execTask]
      by_cases h1 : (!shouldLog && strStartsWith text "_→") = true
      · rw [if_pos h1]
        by_cases h2 : s.recentTools.length ≥ 3
        · rw [if_pos h2, updateDisplay_recentTools]
          have h3 : s.recentTools.length = 3 := le_antisymm h h2
          simp [List.length_tail, h3]
        · rw [if_neg h2, updateDisplay_recentTools]
          simp only [List.length_append, List.length_cons, List.length_nil]
          omega
      · rw [if_neg h1]
        by_cases h2 : (!shouldLog) = true
        · rw [if_pos h2, updateDisplay_recentTools]; exact h
        · rw [if_neg h2, updateDisplay_recentTools]; exact h
  | replaceTask text =>
      simp only [execTask]
      rw [updateDisplay_recentTools]
      exact h
  | typingTask =>
      simp only [execTask]
      cases s.messageId with
      | some mid => exact h
      | none => exact h
  | workingTask working =>
      simp only [execTask]
      by_cases hw : working = false
      · rw [if_pos hw, updateDisplay_recentTools]; simp
      · rw [if_neg hw, updateDisplay_recentTools]; exact h
  | deleteTask =>
      simp only [execTask]
      cases s.messageId with
      | some mid => exact h
      | none => exact h

theorem execTasks_recentTools_le (cfg : CtxConfig) (tasks : List Task)
    (s : CtxState) (ts : Nat) (h : s.recentTools.length ≤ 3) :
    (execTasks cfg s ts tasks).recentTools.length ≤ 3 := by
  induction tasks generalizing s ts with
  | nil => exact h
  | cons t rest ih =>
      rw [execTasks]
      exact ih _ _ (execTask_recentTools_le cfg s ts t h)

/-- C10: the rolling tool window holds at most 3 entries at every reachable
instant; a 4th tool label shifts the oldest entry out and increments the
completed counter by one; and `setWorking(false)` folds every still-visible
label into the completed count and empties the window. -/
theorem recentTools_rolling_window (cfg : CtxConfig) (s : CtxState) (ts : Nat) :
    (∀ tasks, (execTasks cfg initCtxState 0 tasks).recentTools.length ≤ 3) ∧
    (∀ text, s.recentTools.length = 3 → strStartsWith text "_→" = true →
      (execTask cfg s ts (Task.respondTask text false)).state.recentTools =
        s.recentTools.tail ++ [toolEntry text] ∧
      (execTask cfg s ts (Task.respondTask text false)).state.completedToolCount =
        s.completedToolCount + 1) ∧
    ((execTask cfg s ts (Task.workingTask false)).state.completedToolCount =
       s.completedToolCount + s.recentTools.length ∧
     (execTask cfg s ts (Task.workingTask false)).state.recentTools = []) := by
  refine ⟨?_, ?_, ?_⟩
  · intro tasks
    exact execTasks_recentTools_le cfg tasks initCtxState 0 (by simp [initCtxState])
  · intro text h3 hlab
    have hge : s.recentTools.length ≥ 3 := le_of_eq h3.symm
    simp only [execTask]
    rw [if_pos (by simp [hlab]), if_pos hge]
    rw [updateDisplay_recentTools, updateDisplay_completed]
    exact ⟨rfl, rfl⟩
  · simp only [execTask, if_true]
    rw [updateDisplay_recentTools, updateDisplay_completed]
    exact ⟨rfl, rfl⟩

theorem recentTools_rolling_window_witness :
    ((["<i>a</i>", "<i>b</i>", "<i>c</i>"] : List String).length = 3 ∧
     strStartsWith "_→ Reading file_" "_→" = true) ∧
    ((execTasks ⟨"77", none⟩ initCtxState 0
        [Task.respondTask "_→ a_" false, Task.respondTask "_→ b_" false,
         Task.respondTask "_→ c_" false, Task.respondTask "_→ d_" false]).recentTools.length ≤ 3 ∧
     (execTask ⟨"77", none⟩ ⟨some "1", "", true, ["<i>a</i>", "<i>b</i>", "<i>c</i>"], 5⟩ 2
        (Task.respondTask "_→ Reading file_" false)).state.recentTools =
       ["<i>b</i>", "<i>c</i>", toolEntry "_→ Reading file_"] ∧
     (execTask ⟨"77", none⟩ ⟨some "1", "", true, ["<i>a</i>", "<i>b</i>", "<i>c</i>"], 5⟩ 2
        (Task.respondTask "_→ Reading file_" false)).state.completedToolCount = 6 ∧
     (execTask ⟨"77", none⟩ ⟨some "1", "", true, ["<i>a</i>", "<i>b</i>", "<i>c</i>"], 5⟩ 2
        (Task.workingTask false)).state.completedToolCount = 8 ∧
     (execTask ⟨"77", none⟩ ⟨some "1", "", true, ["<i>a</i>", "<i>b</i>", "<i>c</i>"], 5⟩ 2
        (Task.workingTask false)).state.recentTools = []) := by
  have h := recentTools_rolling_window ⟨"77", none⟩
    ⟨some "1", "", true, ["<i>a</i>", "<i>b</i>", "<i>c</i>"], 5⟩ 2
  have hwin := h.2.1 "_→ Reading file_" rfl (by decide)
  refine ⟨⟨rfl, by decide⟩, h.1 _, ?_, ?_, h.2.2.1, h.2.2.2⟩
  · simpa using hwin.1
  · simpa using hwin.2

/-! ## The `updatePromise` pipeline (C3)

Each public context call runs `updatePromise = updatePromise.then(body)`:
the body is appended to the tail of one promise chain and the chain executes
bodies strictly in append order.  The model interleaves *production*
(a call appending its task, guards evaluated against the state visible at
call time) with *execution* (the chain running its oldest pending task)
in any order, and shows the emitted platform operations can never appear
out of production order. -/

/-- A public call on the rendering context, in production order. -/
inductive Call where
  | respond (text : String) (shouldLog : Bool)
  | replaceMessage (text : String)
  | setTyping (b : Bool)
  | setWorking (b : Bool)
  | deleteMessage
deriving DecidableEq, Repr

/-- What a call chains onto `updatePromise`.  `setTyping` chains only when
called with `true` while no message exists yet (the synchronous guard);
`setTyping(false)` and a guarded-out `setTyping(true)` chain nothing. -/
def produceCall (s : CtxState) : Call → Option Task
  | Call.respond text shouldLog => some (Task.respondTask text shouldLog)
  | Call.replaceMessage text => some (Task.replaceTask text)
  | Call.setTyping b => if b && s.messageId.isNone then some Task.typingTask else none
  | Call.setWorking b => some (Task.workingTask b)
  | Call.deleteMessage => some Task.deleteTask

/-- The whole pipeline: context state, calls not yet produced, the production
counter, the chain of pending tasks (tagged with the producing call's index),
the platform operations already executed (tagged likewise), and the message
id supply. -/
structure Pipeline where
  ctx : CtxState
  calls : List Call
  nextIdx : Nat
  pending : List (Nat × Task)
  ops : List (Nat × PlatformOp)
  nextTs : Nat
deriving DecidableEq, Repr

def initPipeline (calls : List Call) : Pipeline :=
  { ctx := initCtxState, calls := calls, nextIdx := 0, pending := [], ops := [],
    nextTs := 0 }

inductive Move where
  | produce
  | execute
deriving DecidableEq, Repr

/-- Appending the produced task (when the call chained one) at the tail of
the chain, tagged with its production index. -/
def appendTask (pending : List (Nat × Task)) (idx : Nat) :
    Option Task → List (Nat × Task)
  | some t => pending ++ [(idx, t)]
  | none => pending

/-- One scheduler step: produce the next call (append its task to the chain's
tail) or execute the chain's oldest pending task. -/
def pipeStep (cfg : CtxConfig) (p : Pipeline) : Move → Pipeline
  | Move.produce =>
      match p.calls with
      | [] => p
      | c :: rest =>
          { p with calls := rest
                   nextIdx := p.nextIdx + 1
                   pending := appendTask p.pending p.nextIdx (produceCall p.ctx c) }
  | Move.execute =>
      match p.pending with
      | [] => p
      | (i, t) :: rest =>
          let r := execTask cfg p.ctx p.nextTs t
          { p with ctx := r.state
                   pending := rest
                   ops := p.ops ++ r.ops.map (fun o => (i, o))
                   nextTs := r.nextTs }

def runMoves (cfg : CtxConfig) (p : Pipeline) : List Move → Pipeline
  | [] => p
  | m :: ms => runMoves cfg (pipeStep cfg p m) ms

def opTags (p : Pipeline) : List Nat := p.ops.map Prod.fst

def pendTags (p : Pipeline) : List Nat := p.pending.map Prod.fst

/-- The pipeline invariant: executed-operation tags are nondecreasing, the
chain's pending tags strictly increase, every executed tag is below every
pending tag, and all tags are below the production counter. -/
structure PipeInv (p : Pipeline) : Prop where
  opsMono : List.Pairwise (· ≤ ·) (opTags p)
  pendMono : List.Pairwise (· < ·) (pendTags p)
  opsLtPend : ∀ a ∈ opTags p, ∀ b ∈ pendTags p, a < b
  opsLtNext : ∀ a ∈ opTags p, a < p.nextIdx
  pendLtNext : ∀ a ∈ pendTags p, a < p.nextIdx

theorem pairwise_le_map_const {α : Type} (l : List α) (i : Nat) :
    List.Pairwise (· ≤ ·) (l.map (fun _ => i)) := by
  induction l with
  | nil => exact List.Pairwise.nil
  | cons x rest ih =>
      rw [List.map_cons, List.pairwise_cons]
      refine ⟨?_, ih⟩
      intro b hb
      rcases List.mem_map.mp hb with ⟨c, -, rfl⟩
      exact le_refl i

theorem pipeInv_init (calls : List Call) : PipeInv (initPipeline calls) := by
  refine ⟨?_, ?_, ?_, ?_, ?_⟩ <;>
    simp [initPipeline, opTags, pendTags]

theorem pipeInv_step (cfg : CtxConfig) (p : Pipeline) (m : Move)
    (h : PipeInv p) : PipeInv (pipeStep cfg p m) := by
  cases m with
  | produce =>
      cases hc : p.calls with
      | nil =>
          have he : pipeStep cfg p Move.produce = p := by
            simp [pipeStep, hc]
          rw [he]; exact h
      | cons c rest =>
          rcases h with ⟨h1, h2, h3, h4, h5⟩
          have he : pipeStep cfg p Move.produce =
              { p with calls := rest
                       nextIdx := p.nextIdx + 1
                       pending := appendTask p.pending p.nextIdx
                         (produceCall p.ctx c) } := by
            simp [pipeStep, hc]
          rw [he]
          cases hpc : produceCall p.ctx c with
          | none =>
              refine ⟨?_, ?_, ?_, ?_, ?_⟩ <;>
                simp only [opTags, pendTags, appendTask]
              · exact h1
              · exact h2
              · exact h3
              · intro a ha; exact Nat.lt_succ_of_lt (h4 a ha)
              · intro a ha; exact Nat.lt_succ_of_lt (h5 a ha)
          | some t =>
              refine ⟨?_, ?_, ?_, ?_, ?_⟩ <;>
                simp only [opTags, pendTags, appendTask, List.map_append,
                  List.map_cons, List.map_nil]
              · exact h1
              · rw [List.pairwise_append]
                refine ⟨h2, List.pairwise_singleton _ _, ?_⟩
                intro a ha b hb
                rcases List.mem_singleton.mp hb with rfl
                exact h5 a ha
              · intro a ha b hb
                rcases List.mem_append.mp hb with hb | hb
                · exact h3 a ha b hb
                · rcases List.mem_singleton.mp hb with rfl
                  exact h4 a ha
              · intro a ha; exact Nat.lt_succ_of_lt (h4 a ha)
              · intro a ha
                rcases List.mem_append.mp ha with ha | ha
                · exact Nat.lt_succ_of_lt (h5 a ha)
                · rcases List.mem_singleton.mp ha with rfl
                  exact Nat.lt_succ_self _
  | execute =>
      cases hp : p.pending with
      | nil =>
          have he : pipeStep cfg p Move.execute = p := by
            simp [pipeStep, hp]
          rw [he]; exact h
      | cons it rest =>
          rcases it with ⟨i, t⟩
          rcases h with ⟨h1, h2, h3, h4, h5⟩
          have hiPend : i ∈ pendTags p := by
            simp [pendTags, hp]
          have hRestLt : ∀ b ∈ rest.map Prod.fst, i < b := by
            have h2' := h2
            rw [pendTags, hp, List.map_cons, List.pairwise_cons] at h2'
            exact h2'.1
          have he : pipeStep cfg p Move.execute =
              { p with ctx := (execTask cfg p.ctx p.nextTs t).state
                       pending := rest
                       ops := p.ops ++
                         (execTask cfg p.ctx p.nextTs t).ops.map (fun o => (i, o))
                       nextTs := (execTask cfg p.ctx p.nextTs t).nextTs } := by
            simp [pipeStep, hp]
          rw [he]
          refine ⟨?_, ?_, ?_, ?_, ?_⟩ <;>
            simp only [opTags, pendTags, List.map_append, List.map_map]
          · rw [List.pairwise_append]
            refine ⟨h1, ?_, ?_⟩
            · exact pairwise_le_map_const (execTask cfg p.ctx p.nextTs t).ops i
            · intro a ha b hb
              rcases List.mem_map.mp hb with ⟨o, -, rfl⟩
              exact le_of_lt (h3 a ha i hiPend)
          · rw [pendTags, hp, List.map_cons, List.pairwise_cons] at h2
            exact h2.2
          · intro a ha b hb
            rcases List.mem_append.mp ha with ha | ha
            · exact lt_of_lt_of_le (h3 a ha i hiPend) (le_of_lt (hRestLt b hb))
            · rcases List.mem_map.mp ha with ⟨o, -, rfl⟩
              exact hRestLt b hb
          · intro a ha
            rcases List.mem_append.mp ha with ha | ha
            · exact h4 a ha
            · rcases List.mem_map.mp ha with ⟨o, -, rfl⟩
              exact h5 i hiPend
          · intro a ha
            refine h5 a ?_
            rw [pendTags, hp, List.map_cons]
            exact List.mem_cons_of_mem _ ha

theorem pipeInv_runMoves (cfg : CtxConfig) (p : Pipeline) (moves : List Move)
    (h : PipeInv p) : PipeInv (runMoves cfg p moves) := by
  induction moves generalizing p with
  | nil => exact h
  | cons m ms ih => exact ih _ (pipeInv_step cfg p m h)

/-- C3: for every sequence of public calls and every interleaving of call
production with chain execution, the platform operations executed by the run's
single `updatePromise` pipeline carry nondecreasing production indices — an
operation produced by a later call is never performed before one produced by
an earlier call. -/
theorem render_ops_in_production_order (cfg : CtxConfig) (calls : List Call)
    (moves : List Move) :
    List.Pairwise (· ≤ ·)
      ((runMoves cfg (initPipeline calls) moves).ops.map Prod.fst) :=
  (pipeInv_runMoves cfg (initPipeline calls) moves (pipeInv_init calls)).opsMono

end Troublemaker
